import Mathlib

/-!
Verification of the reasoning / memory / parsing subsystem of the
AgentSocietyChallenge simulator.

Python strings are modelled as `List Char` (`Str`); Python floats as `Rat`;
Python exceptions as `Except PyErr`; the external LLM endpoint, the embedding
backend and the Chroma similarity index are modelled as oracle functions
supplied as explicit parameters.  All definitions are direct translations of
the source files
`websocietysimulator/agent/tot_simulation_agent_dilu.py`,
`websocietysimulator/agent/modules/reasoning_modules.py` and
`websocietysimulator/agent/modules/memory_modules.py`.
-/

set_option maxRecDepth 4096

/-- Python `str` values. -/
abbrev Str := List Char

/-- A Python exception (only the message is modelled). -/
structure PyErr where
  msg : Str
deriving DecidableEq

deriving instance DecidableEq for Except

/-- Python substring test `pat in s` (for a nonempty pattern this is the
usual contiguous-substring containment; `pat in s` is also true when
`pat` is empty). -/
def strContains (s pat : Str) : Bool :=
  match s with
  | [] => pat.isEmpty
  | _ :: xs => pat.isPrefixOf s || strContains xs pat

/-- Python `str.lower()` (ASCII case folding, as used on the ASCII tokens
`"stars:"`, `"review:"`, `"think"` in the source). -/
def pyLower (s : Str) : Str := s.map Char.toLower

/-- Split a string on a separator character; Python `s.split(c)` semantics:
always returns one more part than there are separators, keeping empties. -/
def splitOnChar (c : Char) : Str → List Str
  | [] => [[]]
  | x :: xs =>
    let r := splitOnChar c xs
    if x = c then [] :: r
    else
      match r with
      | h :: t => (x :: h) :: t
      | [] => [[x]]

/-- Python `s.split('\n')`. -/
def splitLines (s : Str) : List Str := splitOnChar '\n' s

/-- Python `str.strip()` (whitespace removed from both ends). -/
def pyStrip (s : Str) : Str :=
  ((s.dropWhile Char.isWhitespace).reverse.dropWhile Char.isWhitespace).reverse

/-- Numeric value of a (nonempty) list of decimal digit characters. -/
def digitsVal (ds : Str) : Nat :=
  ds.foldl (fun acc c => acc * 10 + (c.toNat - '0'.toNat)) 0

/-- Python `float(s)` on an already-stripped string, modelled for the
plain-decimal subset of Python float syntax: an optional sign, then either
`digits`, `digits.`, `.digits` or `digits.digits`.  Exponents, `inf`, `nan`
and underscore separators are not modelled; those inputs (like any other
malformed input, on which `float` raises `ValueError`) yield `none`.  No
claim depends on the unmodelled forms. -/
def pyFloat (s : Str) : Option Rat :=
  let (sign, t) : Rat × Str :=
    match s with
    | '-' :: r => (-1, r)
    | '+' :: r => (1, r)
    | _ => (1, s)
  let ip := t.takeWhile Char.isDigit
  let rest := t.drop ip.length
  match rest with
  | [] => if ip.isEmpty then none else some (sign * (digitsVal ip : Rat))
  | '.' :: frac =>
    if frac.all Char.isDigit ∧ ¬(ip.isEmpty ∧ frac.isEmpty) then
      some (sign * ((digitsVal ip : Rat) + (digitsVal frac : Rat) / ((10 : Rat) ^ frac.length)))
    else none
  | _ => none

/-- A decision returned by the per-task workflow: `{"stars": ..., "review": ...}`. -/
structure Decision where
  stars : Rat
  review : Str
deriving DecidableEq

/-! ## Result parser

Translation of the parsing block of `TOTSimulationAgentDILU.workflow`
(`tot_simulation_agent_dilu.py` lines 111-152).  The input is `Option Str`:
`none` models a `result` that is `None` or not a `str` (the code guards with
`if result and isinstance(result, str)`), in which case no stars/review line
is found.
-/

/-- `[line for line in result.split('\n') if 'stars:' in line.lower()]`. -/
def starsLinesOf (result : Str) : List Str :=
  (splitLines result).filter (fun l => strContains (pyLower l) "stars:".data)

/-- `[line for line in result.split('\n') if 'review:' in line.lower()]`. -/
def reviewLinesOf (result : Str) : List Str :=
  (splitLines result).filter (fun l => strContains (pyLower l) "review:".data)

/-- The `stars_line` variable: first stars line, if any (`None` otherwise). -/
def starsLineOf (result? : Option Str) : Option Str :=
  match result? with
  | none => none
  | some result => (starsLinesOf result).head?

/-- The `review_line` variable: first review line, if any. -/
def reviewLineOf (result? : Option Str) : Option Str :=
  match result? with
  | none => none
  | some result => (reviewLinesOf result).head?

/-- The parsed star rating.  `if not stars_line: stars = 3.0` (a falsy
`stars_line`, i.e. `None` or the empty string, defaults); otherwise
`float(stars_line.split(':')[1].strip())` with `3.0` on fewer than two
split parts or on a `float` parse failure. -/
def parsedStars (result? : Option Str) : Rat :=
  match starsLineOf result? with
  | none => 3
  | some l =>
    if l.isEmpty then 3
    else
      let parts := splitOnChar ':' l
      if parts.length > 1 then
        match pyFloat (pyStrip (parts.getD 1 [])) with
        | some v => v
        | none => 3
      else 3

/-- The parsed review text before truncation: `review_line.split(':')[1].strip()`
with the placeholder on a falsy line or fewer than two split parts. -/
def parsedReviewRaw (result? : Option Str) : Str :=
  match reviewLineOf result? with
  | none => "No review generated.".data
  | some l =>
    if l.isEmpty then "No review generated.".data
    else
      let parts := splitOnChar ':' l
      if parts.length > 1 then pyStrip (parts.getD 1 [])
      else "No review generated.".data

/-- The parsed review text: `if len(review_text) > 512: review_text = review_text[:512]`. -/
def parsedReview (result? : Option Str) : Str :=
  let r := parsedReviewRaw result?
  if r.length > 512 then r.take 512 else r

/-- The structured decision built from a raw reasoning result. -/
def parseDecision (result? : Option Str) : Decision :=
  { stars := parsedStars result?, review := parsedReview result? }

/-! ## Further string primitives used by the memory and reasoning modules -/

/-- Recursion kernel for `pyRemove`, structurally recursive on a fuel bound
(`fuel ≥ s.length` always holds at the call sites, so the fuel-exhausted
arm is never reached; fuel makes the definition compute by `rfl`/`decide`). -/
def pyRemoveAux (pat : Str) : Nat → Str → Str
  | _, [] => []
  | 0, s => s
  | fuel + 1, x :: xs =>
    if pat.isPrefixOf (x :: xs) then pyRemoveAux pat fuel (xs.drop (pat.length - 1))
    else x :: pyRemoveAux pat fuel xs

/-- Python `s.replace(pat, '')` for a nonempty `pat`: scan left to right,
removing each non-overlapping occurrence and continuing after it. -/
def pyRemove (pat s : Str) : Str := pyRemoveAux pat s.length s

/-- Recursion kernel for `splitOnSub` (same fuel discipline as `pyRemoveAux`). -/
def splitOnSubAux (pat : Str) : Nat → Str → List Str
  | _, [] => [[]]
  | 0, s => [s]
  | fuel + 1, x :: xs =>
    if pat.isPrefixOf (x :: xs) then [] :: splitOnSubAux pat fuel (xs.drop (pat.length - 1))
    else
      match splitOnSubAux pat fuel xs with
      | h :: t => (x :: h) :: t
      | [] => [[x]]

/-- Split on a nonempty substring pattern, left to right, non-overlapping
(Python `s.split(pat)` for nonempty `pat`). -/
def splitOnSub (pat s : Str) : List Str := splitOnSubAux pat s.length s

/-- First index of the maximum of a list of naturals (0 for the empty list).
This is both Python `l.index(max(l))` and the first element of
`sorted(range(len(l)), key=lambda x: l[x], reverse=True)` (Python sorts are
stable, and `reverse=True` keeps the original order of equal keys, so the
head of that sort is the earliest index attaining the maximum). -/
def firstMaxIdx : List Nat → Nat
  | [] => 0
  | x :: xs =>
    let j := firstMaxIdx xs
    if xs.getD j 0 > x then j + 1 else 0

/-- First maximal run of decimal digits in a string, as a number:
Python `int(re.search(r'\d+', s).group())`, `none` when `re.search` finds
no digit. -/
def firstIntOf (s : Str) : Option Nat :=
  let t := s.dropWhile (fun c => ¬ c.isDigit)
  match t with
  | [] => none
  | _ => some (digitsVal (t.takeWhile Char.isDigit))

/-- Distinct elements of a list in order of first occurrence: the key order
of a Python `Counter`/`dict` built by insertion. -/
def keysInOrder (l : List Str) : List Str :=
  l.foldl (fun acc x => if x ∈ acc then acc else acc ++ [x]) []

/-- Python truthiness of an optional string (`None` and `''` are falsy),
the test made by `metadata.get('task_trajectory')` guards. -/
def pyTruthyOpt : Option Str → Bool
  | none => false
  | some [] => false
  | some (_ :: _) => true

/-! ## Episodic memory store (`memory_modules.py`)

A `MemRecord` models one Chroma document: its `page_content` and the
metadata fields the four variants write.  A metadata field that a variant
does not set is `none`; a Python `metadata['k']` access on a missing field
raises `KeyError`, while `metadata.get('k')` yields `None`.
The backing index is modelled as a list of records plus a similarity-search
oracle `search store query k` returning scored records; the store count is
the list length.  The LLM endpoint is an oracle `llm : Str → Str` from the
rendered user-message content to the completion text (calls whose failure
would propagate a provider error are outside the memory claims' scope).
-/

structure MemRecord where
  page_content : Str
  task_name : Option Str := none
  task_description : Option Str := none
  task_trajectory : Option Str := none
deriving DecidableEq

instance : Inhabited MemRecord := ⟨{ page_content := [] }⟩

/-- A similarity-search oracle: `search store query k` models
`scenario_memory.similarity_search_with_score(query, k=k)` with scores as
rationals. -/
abbrev SearchOracle := List MemRecord → Str → Nat → List (MemRecord × Rat)

/-- The record built by `MemoryDILU.addMemory` / `MemoryGenerative.addMemory` /
`MemoryTP.addMemory`: page content is the raw text, metadata stores the text
as both `task_name` and `task_trajectory`. -/
def mkPlainRecord (current_situation : Str) : MemRecord :=
  { page_content := current_situation
    task_name := some current_situation
    task_trajectory := some current_situation }

/-- The fixed prefix of the `MemoryVoyager.addMemory` summarization prompt. -/
def voyagerPromptPrefix : Str :=
  ("You are a helpful assistant that writes a description of the task resolution trajectory.\n\n        1) Try to summarize the trajectory in no more than 6 sentences.\n        2) Your response should be a single line of text.\n\n        For example:\n\nPlease fill in this part yourself\n\n        Trajectory:\n        ").data

/-- The record built by `MemoryVoyager.addMemory`: the LLM-generated summary
becomes the embedded page content and the `task_description` metadata, while
the original trajectory is kept as `task_trajectory`. -/
def mkVoyagerRecord (llm : Str → Str) (current_situation : Str) : MemRecord :=
  let trajectory_summary := llm (voyagerPromptPrefix ++ current_situation)
  { page_content := trajectory_summary
    task_description := some trajectory_summary
    task_trajectory := some current_situation }

/-- The four memory variants. -/
inductive MemVariant | dilu | generative | tp | voyager
deriving DecidableEq

/-- The record one `addMemory` call creates in each variant. -/
def mkRecord (v : MemVariant) (llm : Str → Str) (t : Str) : MemRecord :=
  match v with
  | .voyager => mkVoyagerRecord llm t
  | _ => mkPlainRecord t

/-- The store produced by a sequence of `addMemory` calls (the only
operations that change the store; `retriveMemory` reads it).  Documents are
appended, never mutated or deleted. -/
def buildStore (v : MemVariant) (llm : Str → Str) (texts : List Str) : List MemRecord :=
  texts.map (mkRecord v llm)

/-- `MemoryDILU.retriveMemory`: on an empty store return `''`; otherwise take
the top-1 similarity result and join the `task_trajectory` of each result
whose trajectory metadata is truthy (the comprehension's
`if result and len(result) > 0 and result[0].metadata.get('task_trajectory')`
guard; the first two conjuncts are always true of a `(document, score)`
pair).  Wrapped in `Except` to model exception behaviour: every dictionary
access here is guarded, so the body never throws. -/
def diluRetrieve (search : SearchOracle) (store : List MemRecord) (query_scenario : Str) :
    Except PyErr Str :=
  if store.length = 0 then .ok []
  else
    let similarity_results := search store query_scenario 1
    let task_trajectories :=
      (similarity_results.filter (fun r => pyTruthyOpt r.1.task_trajectory)).map
        (fun r => r.1.task_trajectory.getD [])
    .ok (List.intercalate "\n".data task_trajectories)

/-- The unguarded `result[0].metadata['task_trajectory']` access of
`MemoryVoyager.retriveMemory`: raises `KeyError` when the field is absent. -/
def trajOf (r : MemRecord × Rat) : Except PyErr Str :=
  match r.1.task_trajectory with
  | some t => .ok t
  | none => .error ⟨"KeyError: task_trajectory".data⟩

/-- `MemoryVoyager.retriveMemory`: on an empty store return `''`; otherwise
`[result[0].metadata['task_trajectory'] for result in similarity_results]` —
an unguarded dictionary access that raises `KeyError` when a result's
metadata has no `task_trajectory` field — joined with newlines. -/
def voyagerRetrieve (search : SearchOracle) (store : List MemRecord) (query_scenario : Str) :
    Except PyErr Str :=
  if store.length = 0 then .ok []
  else
    match (search store query_scenario 1).mapM trajOf with
    | .ok memory_trajectories => .ok (List.intercalate "\n".data memory_trajectories)
    | .error e => .error e

/-- The fixed banner prefixed by `MemoryTP.retriveMemory`. -/
def tpBanner : Str := "Plan from successful attempt in similar task:\n".data

/-- The relevance-plan prompt of `MemoryTP.retriveMemory`. -/
def tpPrompt (trajectory task_description : Str) : Str :=
  ("You will be given a successful case where you successfully complete the task. Then you will be given an ongoing task. Do not summarize these two cases, but rather use the successful case to think about the strategy and path you took to attempt to complete the task in the ongoing task. Devise a concise, new plan of action that accounts for your task with reference to specific actions that you should have taken. You will need this later to solve the task. Give your plan after \"Plan\".\nSuccess Case:\n").data
    ++ trajectory ++ "\nOngoing task:\n".data ++ task_description ++ "\nPlan:\n".data

/-- `MemoryTP.retriveMemory`: top-1 similar record; for each result with a
truthy trajectory, one LLM call synthesizing a plan; returns the fixed
banner followed by the joined plans. -/
def tpRetrieve (search : SearchOracle) (llm : Str → Str) (store : List MemRecord)
    (query_scenario : Str) : Except PyErr Str :=
  if store.length = 0 then .ok []
  else
    let similarity_results := search store query_scenario 1
    let experience_plans :=
      (similarity_results.filter (fun r => pyTruthyOpt r.1.task_trajectory)).map
        (fun r => llm (tpPrompt (r.1.task_trajectory.getD []) query_scenario))
    .ok (tpBanner ++ List.intercalate "\n".data experience_plans)

/-- The relevance-scoring prompt of `MemoryGenerative.retriveMemory`. -/
def genScorePrompt (trajectory query_scenario : Str) : Str :=
  ("You will be given a successful case where you successfully complete the task. Then you will be given an ongoing task. Do not summarize these two cases, but rather evaluate how relevant and helpful the successful case is for the ongoing task, on a scale of 1-10.\nSuccess Case:\n").data
    ++ trajectory ++ "\nOngoing task:\n".data ++ query_scenario
    ++ "\nYour output format should be:\nScore: ".data

/-- The scoring loop of `MemoryGenerative.retriveMemory`: results whose
trajectory metadata is falsy are skipped (`continue`); each kept result
appends its trajectory to `fewshot_results` and its LLM-rated score
(`int(re.search(r'\d+', response).group())`, defaulting to `0` when the
response has no digits) to `importance_scores`. -/
def genLoop (llm : Str → Str) (query_scenario : Str)
    (similarity_results : List (MemRecord × Rat)) : List Str × List Nat :=
  similarity_results.foldl
    (fun acc r =>
      if pyTruthyOpt r.1.task_trajectory then
        let trajectory := r.1.task_trajectory.getD []
        let response := llm (genScorePrompt trajectory query_scenario)
        let score := (firstIntOf response).getD 0
        (acc.1 ++ [trajectory], acc.2 ++ [score])
      else acc)
    ([], [])

/-- `MemoryGenerative.retriveMemory`: top-3 similar records, one scoring LLM
call per kept record, then `max_score_idx = importance_scores.index(max(...))`
and `similarity_results[max_score_idx][0].metadata.get('task_trajectory', '')`.
Note: `max_score_idx` indexes the *filtered* score list but is applied to the
*unfiltered* `similarity_results`. -/
def genRetrieve (search : SearchOracle) (llm : Str → Str) (store : List MemRecord)
    (query_scenario : Str) : Except PyErr Str :=
  if store.length = 0 then .ok []
  else
    let similarity_results := search store query_scenario 3
    let importance_scores := (genLoop llm query_scenario similarity_results).2
    if importance_scores.isEmpty then .ok []
    else if similarity_results.isEmpty then .ok []
    else
      let max_score_idx := firstMaxIdx importance_scores
      if similarity_results.length ≤ max_score_idx then .ok []
      else
        .ok (((similarity_results.getD max_score_idx default).1.task_trajectory).getD [])

/-- What a `MemoryBase.__call__` invocation does besides returning a value. -/
inductive CallEffect
  | added (text : Str)
  | retrieved (query : Str)
deriving DecidableEq

/-- `MemoryBase.__call__`: a string containing `'review:'` is inserted with
every occurrence of `'review:'` removed (and the call returns Python `None`);
any other string is used as a retrieval query and the retrieval result is
returned.  The retrieval policy is abstracted as `retrieve`. -/
def memoryCall (retrieve : Str → Str) (current_situation : Str) : CallEffect × Option Str :=
  if strContains current_situation "review:".data then
    (.added (pyRemove "review:".data current_situation), none)
  else
    (.retrieved current_situation, some (retrieve current_situation))

/-! ## Reasoning strategies (`reasoning_modules.py`)

The LLM endpoint is an oracle `Str → Nat → Except PyErr (List Str)` mapping
the rendered user-message content and the requested completion count `n` to
the list of completions (or a propagated provider error).
-/

/-- The fixed fallback text `"stars: 3.0\nreview: Unable to generate review."`
written literally at each fallback site of `ReasoningCOTSC.__call__` and
`ReasoningTOT.get_votes`. -/
def fallbackResultText : Str := "stars: 3.0\nreview: Unable to generate review.".data

/-- First few-shot exemplar of `ReasoningBase.process_task_description`. -/
def reasoningExample1 : Str :=
  ("\n        stars: 1.0\n        review: I had high hopes for the Masters Inn Fairgrounds, but my experience was a major letdown. The room was infested with roaches, and the furniture was old and falling apart. The staff was unhelpful and seemed disinterested in addressing the issues. The overall cleanliness and maintenance were poor, which made the stay very uncomfortable. Given my preference for well-maintained and clean environments, this place did not meet any of my standards. I would not recommend it to anyone, especially families or those looking for a pleasant stay.\n        ").data

/-- Second few-shot exemplar of `ReasoningBase.process_task_description`. -/
def reasoningExample2 : Str :=
  ("\n        stars: 3.0\n        review: I visited Arizona Bug Doctor for pest control services, and my experience was mixed. On the positive side, the technicians were knowledgeable and thorough, which is important when dealing with pests. However, scheduling the appointment was a bit of a challenge, and the office staff could be more responsive. The limited hours of operation were also inconvenient. Overall, the service was effective, but there's room for improvement in customer service and flexibility.\n        ").data

/-- The `examples` list returned by `process_task_description`. -/
def reasoningExamples : List Str := [reasoningExample1, reasoningExample2]

/-- Python `repr` of a string as used when a list of strings is interpolated
by `str.format`: quoted with single quotes, or double quotes when the string
contains a single quote but no double quote.  (Escaping of quotes and
non-printable characters inside the text is not modelled; no theorem
inspects prompt text.) -/
def pyRepr (s : Str) : Str :=
  if strContains s [Char.ofNat 39] ∧ ¬ strContains s [Char.ofNat 34] then
    Char.ofNat 34 :: (s ++ [Char.ofNat 34])
  else
    Char.ofNat 39 :: (s ++ [Char.ofNat 39])

/-- Python `str` of a list of strings (`'{examples}'.format` renders the
`examples` list this way). -/
def pyStrOfList (l : List Str) : Str :=
  '[' :: (List.intercalate ", ".data (l.map pyRepr)) ++ "]".data

/-- The prompt of `ReasoningCOT`/`ReasoningCOTSC`/`ReasoningTOT`/`ReasoningSelfRefine`:
`'Solve the task step by step. ...'.format(task_description=..., examples=...)`. -/
def stepPromptOf (task_description : Str) : Str :=
  "Solve the task step by step. Your instructions must follow the examples.\nHere are some examples.\n".data
    ++ pyStrOfList reasoningExamples
    ++ "\nHere is the task:\n".data ++ task_description

/-- The voting prompt of `ReasoningTOT.get_votes` as actually sent to the
LLM: the `messages` list is built from the formatted template *before* the
`Answer i:` lines are appended to the local `prompt` variable, so the
candidates never reach the model. -/
def votePromptOf (task_description : Str) : Str :=
  "Given the reasoning process for two completed tasks and one ongoing task, and several answers for the next step, decide which answer best follows the reasoning process for example command format. Output \"The best answer is {s}\", where s is the integer id chosen.\nHere are some examples.\n".data
    ++ pyStrOfList reasoningExamples
    ++ "\nHere is the task:\n".data ++ task_description ++ "\n\n".data

/-- The literal phrase of the vote pattern `r".*best answer is .*(\d+).*"`. -/
def voteLiteral : Str := "best answer is ".data

/-- Index of the last decimal-digit character of a string, if any. -/
def lastDigitIdx (s : Str) : Option Nat :=
  (List.range s.length).foldl
    (fun acc i => if (s.getD i ' ').isDigit then some i else acc) none

/-- `re.match(r".*best answer is .*(\d+).*", vote_output, re.DOTALL)` and the
captured integer.  Backtracking semantics of the Python pattern: the leading
greedy `.*` tries the latest occurrence of the literal `"best answer is "`
first, the inner greedy `.*` then backtracks from the end of the string one
character at a time, so `(\d+)` first succeeds starting at the *last* digit
of the string — capturing exactly that one digit, since no digit follows it.
If no digit lies at or after the end of any occurrence of the literal, every
backtracking choice fails and there is no match.  Hence: the match succeeds
iff some occurrence of `"best answer is "` ends at or before the last digit
of the string, and the captured group is that final digit. -/
def parseVote (vote_output : Str) : Option Nat :=
  match lastDigitIdx vote_output with
  | none => none
  | some j =>
    if (List.range (j + 1)).any
        (fun p => decide (p + voteLiteral.length ≤ j) && voteLiteral.isPrefixOf (vote_output.drop p)) then
      some ((vote_output.getD j '0').toNat - '0'.toNat)
    else none

/-- Increment position `i` of a tally list (Python `vote_results[vote] += 1`). -/
def bumpAt (l : List Nat) (i : Nat) : List Nat := l.set i (l.getD i 0 + 1)

/-- One iteration of the vote loop of `ReasoningTOT.get_votes`: a falsy
output is skipped (`if not vote_output: continue`); an output that matches
the pattern with captured integer `d` such that `d - 1` is a valid 0-based
index adds one vote at `d - 1`; unparseable outputs are skipped
(log-but-continue). -/
def tallyStep (k : Nat) (vote_results : List Nat) (out : Str) : List Nat :=
  if out.isEmpty then vote_results
  else
    match parseVote out with
    | some d => if 1 ≤ d ∧ d - 1 < k then bumpAt vote_results (d - 1) else vote_results
    | none => vote_results

/-- The vote tally of `ReasoningTOT.get_votes`, starting from `[0] * k`. -/
def tallyVotes (k : Nat) (vote_outputs : List Str) : List Nat :=
  vote_outputs.foldl (tallyStep k) (List.replicate k 0)

/-- The selection step of `get_votes` after the tally:
`select_id = sorted(ids, key=lambda x: vote_results[x], reverse=True)[0]`
(first index attaining the maximal tally, by stability of Python sorts),
with the source's defensive fallbacks. -/
def getVotesCore (reasoning_results : List Str) (vote_outputs : List Str) : Str :=
  let vote_results := tallyVotes reasoning_results.length vote_outputs
  if reasoning_results.length = 0 then fallbackResultText
  else
    let select_id := firstMaxIdx vote_results
    if reasoning_results.length ≤ select_id then reasoning_results.headD fallbackResultText
    else reasoning_results.getD select_id []

/-- `ReasoningTOT.get_votes` as a function of the five vote completions the
LLM returned: empty candidate list → fallback; a truthy first candidate
containing `'think'` (lowercased) is returned directly; otherwise tally and
select. -/
def getVotes (reasoning_results : List Str) (vote_outputs : List Str) : Str :=
  match reasoning_results with
  | [] => fallbackResultText
  | r0 :: _ =>
    if ¬ r0.isEmpty ∧ strContains (pyLower r0) "think".data then r0
    else getVotesCore reasoning_results vote_outputs

/-- `ReasoningTOT.get_votes` with the voting LLM call made explicit (the
short-circuit on `'think'` happens before the call; the call requests
`n = 5` completions at temperature 0.7). -/
def getVotesM (llm : Str → Nat → Except PyErr (List Str)) (task_description : Str)
    (reasoning_results : List Str) : Except PyErr Str :=
  match reasoning_results with
  | [] => .ok fallbackResultText
  | r0 :: _ =>
    if ¬ r0.isEmpty ∧ strContains (pyLower r0) "think".data then .ok r0
    else do
      let vote_outputs ← llm (votePromptOf task_description) 5
      .ok (getVotesCore reasoning_results vote_outputs)

/-- `ReasoningTOT.__call__`: one LLM call for `n = 3` candidates (an empty
response list is replaced by the fallback singleton), then `get_votes`. -/
def totCall (llm : Str → Nat → Except PyErr (List Str)) (task_description : Str) :
    Except PyErr Str := do
  let reasoning_results ← llm (stepPromptOf task_description) 3
  let reasoning_results := if reasoning_results.isEmpty then [fallbackResultText] else reasoning_results
  getVotesM llm task_description reasoning_results

/-- `Counter(reasoning_results).most_common(1)[0][0]` when the list is
nonempty: `Counter` keys appear in first-occurrence order and `most_common`
sorts stably by descending count, so the head is the first-seen key with
maximal count. -/
def mostCommon1 (reasoning_results : List Str) : Option Str :=
  let keys := keysInOrder reasoning_results
  match keys with
  | [] => none
  | _ :: _ =>
    some (keys.getD (firstMaxIdx (keys.map (fun x => reasoning_results.count x))) [])

/-- The selection step of `ReasoningCOTSC.__call__` on the list of `n = 5`
completions returned by its single LLM call: the most frequent completion
(first-seen wins), or `reasoning_results[0] if reasoning_results else`
the fixed fallback when `most_common` is empty. -/
def cotscSelect (reasoning_results : List Str) : Str :=
  match mostCommon1 reasoning_results with
  | some r => r
  | none => reasoning_results.headD fallbackResultText

/-! ## Agent orchestrator (`tot_simulation_agent_dilu.py`)

The `InteractionTool` and the LLM are oracles in a `WorkflowEnv`; any of
them can raise.  `workflowBody` is the body of the `try:` block of
`TOTSimulationAgentDILU.workflow`; `workflow` is the whole method, whose
`except Exception` converts any error into the sentinel decision.
-/

/-- One review record returned by `InteractionTool.get_reviews`;
`review['text']` raises `KeyError` when the key is absent (`none`). -/
structure ReviewRec where
  text : Option Str
deriving DecidableEq

/-- A `{user_id, item_id}` task. -/
structure TaskDesc where
  user_id : Str
  item_id : Str
deriving DecidableEq

/-- One sub-task of `PlanningBaseline.__call__` (only the `description`
field is read by the workflow loop; the `reasoning instruction` and
`tool use instruction` fields are never consumed). -/
structure PlanStep where
  description : Str
deriving DecidableEq

/-- The fixed two-step plan of `PlanningBaseline.__call__`. -/
def planBaseline : List PlanStep :=
  [⟨"First I need to find user information".data⟩,
   ⟨"Next, I need to find business information".data⟩]

/-- The external collaborators of one per-task workflow run. `getUser` and
`getItem` return `none` for a falsy (`None`) payload and `some s` for a
truthy payload whose `str()` rendering is `s`; each call may raise. -/
structure WorkflowEnv where
  getUser : Str → Except PyErr (Option Str)
  getItem : Str → Except PyErr (Option Str)
  getReviewsByItem : Str → Except PyErr (List ReviewRec)
  getReviewsByUser : Str → Except PyErr (List ReviewRec)
  search : SearchOracle
  llm : Str → Nat → Except PyErr (List Str)

def noUserData : Str := "No user data available".data

def noBusinessData : Str := "No business data available".data

/-- Python truthiness of the `user` / `business` variables (`None` before
assignment, possibly an empty string). -/
def pyFalsyStrOpt : Option Str → Bool
  | none => true
  | some [] => true
  | some (_ :: _) => false

/-- Python `d[k]` on a modelled optional field: `KeyError` when absent. -/
def pyKey (k : Str) (v : Option Str) : Except PyErr Str :=
  match v with
  | some x => .ok x
  | none => .error ⟨"KeyError: ".data ++ k⟩

/-- `str()` rendering of an optional string at an f-string interpolation
site (`None` renders as `"None"`). -/
def pyRenderOpt : Option Str → Str
  | none => "None".data
  | some s => s

/-- `MemoryBase.__call__` on the agent's `MemoryDILU` instance, threading
the store: an input containing `'review:'` appends a record built from the
input with every `'review:'` removed and returns `None`; any other input
returns the DILU retrieval result and leaves the store unchanged. -/
def memoryCallDILU (search : SearchOracle) (store : List MemRecord) (current_situation : Str) :
    Except PyErr (List MemRecord × Option Str) :=
  if strContains current_situation "review:".data then
    .ok (store ++ [mkPlainRecord (pyRemove "review:".data current_situation)], none)
  else do
    let r ← diluRetrieve search store current_situation
    .ok (store, some r)

/-- The loop `for review in reviews_item: self.memory(f'review: {review_text}')`. -/
def seedStore (search : SearchOracle) :
    List ReviewRec → List MemRecord → Except PyErr (List MemRecord)
  | [], store => .ok store
  | r :: rest, store => do
    let review_text ← pyKey "text".data r.text
    let step ← memoryCallDILU search store ("review: ".data ++ review_text)
    seedStore search rest step.1

/-- The assembled task-description prompt of the workflow (the f-string of
lines 79-108 with `user`, `business` and `review_similar` interpolated). -/
def workflowPrompt (user business review_similar : Str) : Str :=
  "\n            You are a real human user on Yelp, a platform for crowd-sourced business reviews. Here is your Yelp profile and review history: ".data
  ++ user
  ++ "\n\n            You need to write a review for this business: ".data
  ++ business
  ++ "\n\n            Others have reviewed this business before: ".data
  ++ review_similar
  ++ "\n\n            Please analyze the following aspects carefully:\n            1. Based on your user profile and review style, what rating would you give this business? Remember that many users give 5-star ratings for excellent experiences that exceed expectations, and 1-star ratings for very poor experiences that fail to meet basic standards.\n            2. Given the business details and your past experiences, what specific aspects would you comment on? Focus on the positive aspects that make this business stand out or negative aspects that severely impact the experience.\n            3. Consider how other users might engage with your review in terms of:\n            - Useful: How informative and helpful is your review?\n            - Funny: Does your review have any humorous or entertaining elements?\n            - Cool: Is your review particularly insightful or praiseworthy?\n\n            Requirements:\n            - Star rating must be one of: 1.0, 2.0, 3.0, 4.0, 5.0\n            - If the business meets or exceeds expectations in key areas, consider giving a 5-star rating\n            - If the business fails significantly in key areas, consider giving a 1-star rating\n            - Review text should be 2-4 sentences, focusing on your personal experience and emotional response\n            - Useful/funny/cool counts should be non-negative integers that reflect likely user engagement\n            - Maintain consistency with your historical review style and rating patterns\n            - Focus on specific details about the business rather than generic comments\n            - Be generous with ratings when businesses deliver quality service and products\n            - Be critical when businesses fail to meet basic standards\n\n            Format your response exactly as follows:\n            stars: [your rating]\n            review: [your review]\n            ".data

/-- The body of the `try:` block of `TOTSimulationAgentDILU.workflow`:
plan, fetch user/item context, seed the fresh DILU memory with the item's
reviews, retrieve a similar prior review via the user's first review,
assemble the prompt, invoke TOT reasoning, and parse the result. -/
def workflowBody (env : WorkflowEnv) (task : TaskDesc) : Except PyErr Decision := do
  let plan := planBaseline
  let fetched ← fetchLoop env task plan (none, none)
  let user ← if pyFalsyStrOpt fetched.1 then do
      let user_data ← env.getUser task.user_id
      pure (match user_data with | some s => s | none => noUserData)
    else pure (fetched.1.getD [])
  let business ← if pyFalsyStrOpt fetched.2 then do
      let item_data ← env.getItem task.item_id
      pure (match item_data with | some s => s | none => noBusinessData)
    else pure (fetched.2.getD [])
  let reviews_item ← env.getReviewsByItem task.item_id
  let store ← seedStore env.search reviews_item []
  let reviews_user ← env.getReviewsByUser task.user_id
  let review_similar ←
    match reviews_user with
    | [] => pure ([] : Str)
    | r0 :: _ => do
        let t ← pyKey "text".data r0.text
        let step ← memoryCallDILU env.search store t
        pure (pyRenderOpt step.2)
  let task_description := workflowPrompt user business review_similar
  let result ← totCall env.llm task_description
  pure (parseDecision (some result))
where
  /-- `for sub_task in plan:` — fetch user data when the description
  mentions `'user'`, item data when it mentions `'business'`. -/
  fetchLoop (env : WorkflowEnv) (task : TaskDesc) :
      List PlanStep → Option Str × Option Str → Except PyErr (Option Str × Option Str)
    | [], acc => .ok acc
    | st :: rest, (user, business) => do
      if strContains st.description "user".data then
        let user_data ← env.getUser task.user_id
        fetchLoop env task rest
          (some (match user_data with | some s => s | none => noUserData), business)
      else if strContains st.description "business".data then
        let item_data ← env.getItem task.item_id
        fetchLoop env task rest
          (user, some (match item_data with | some s => s | none => noBusinessData))
      else fetchLoop env task rest (user, business)

/-- `{"stars": 0, "review": ""}` — the sentinel decision of the `except` arm. -/
def sentinelDecision : Decision := { stars := 0, review := [] }

/-- `TOTSimulationAgentDILU.workflow`: the `try:` body with
`except Exception` converting any raised error into the sentinel. -/
def workflow (env : WorkflowEnv) (task : TaskDesc) : Decision :=
  match workflowBody env task with
  | .ok d => d
  | .error _ => sentinelDecision

/-! ## Helper lemmas -/

theorem strContains_iff {s pat : Str} : strContains s pat = true ↔ pat <:+: s := by
  induction s with
  | nil =>
    constructor
    · intro h
      have : pat = [] := by
        simpa [strContains, List.isEmpty_iff] using h
      simp [this]
    · intro h
      have : pat = [] := List.eq_nil_of_infix_nil h
      simp [this, strContains]
  | cons x xs ih =>
    simp [strContains, List.infix_cons_iff, List.isPrefixOf_iff_prefix, ih]

theorem toLower_eq_colon {c : Char} (h : c.toLower = ':') : c = ':' := by
  by_cases hc : c.toNat ≥ 65 ∧ c.toNat ≤ 90
  · exfalso
    have h1 : c.toLower = Char.ofNat (c.toNat + 32) := by
      simp [Char.toLower, hc]
    rw [h1] at h
    have hv : (c.toNat + 32).isValidChar := Or.inl (by omega)
    have h2 : (Char.ofNat (c.toNat + 32)).toNat = c.toNat + 32 := by
      rw [Char.ofNat, dif_pos hv]
      rfl
    rw [h] at h2
    have h3 : (':' : Char).toNat = 58 := rfl
    omega
  · have h1 : c.toLower = c := by simp [Char.toLower, hc]
    rw [h1] at h
    exact h

theorem colon_mem_of_contains {l : Str} {pat : Str} (hc : ':' ∈ pat)
    (h : strContains (pyLower l) pat = true) : ':' ∈ l := by
  have hinf : pat <:+: pyLower l := strContains_iff.mp h
  have hmem : ':' ∈ pyLower l := hinf.mem hc
  obtain ⟨c, hcl, hck⟩ := List.mem_map.mp hmem
  exact (toLower_eq_colon hck) ▸ hcl

theorem splitOnChar_eq (c : Char) (s : Str) :
    splitOnChar c s = s.takeWhile (fun x => !(x == c)) ::
      (if c ∈ s then splitOnChar c ((s.dropWhile (fun x => !(x == c))).drop 1) else []) := by
  induction s with
  | nil => simp [splitOnChar]
  | cons x xs ih =>
    by_cases hx : x = c
    · subst hx
      simp [splitOnChar]
    · have hxc : (!(x == c)) = true := by simp [hx]
      have hmem : (c ∈ x :: xs) ↔ (c ∈ xs) := by
        simp only [List.mem_cons]
        constructor
        · rintro (h | h)
          · exact absurd h.symm hx
          · exact h
        · exact Or.inr
      simp only [splitOnChar, if_neg hx, ih, List.takeWhile_cons, List.dropWhile_cons, hxc,
        if_true, hmem]

theorem splitOnChar_ne_nil (c : Char) (s : Str) : splitOnChar c s ≠ [] := by
  rw [splitOnChar_eq]
  simp

theorem splitOnChar_length_gt {c : Char} {l : Str} (h : c ∈ l) :
    1 < (splitOnChar c l).length := by
  rw [splitOnChar_eq, if_pos h]
  have := splitOnChar_ne_nil c ((l.dropWhile (fun x => !(x == c))).drop 1)
  have hlen := List.length_pos.mpr this
  simp only [List.length_cons]
  omega

theorem splitOnChar_getD_one {c : Char} {l : Str} (h : c ∈ l) :
    (splitOnChar c l).getD 1 [] =
      ((l.dropWhile (fun x => !(x == c))).drop 1).takeWhile (fun x => !(x == c)) := by
  rw [splitOnChar_eq, if_pos h, splitOnChar_eq]
  rfl

theorem truncate_eq_take (r : Str) : (if r.length > 512 then r.take 512 else r) = r.take 512 := by
  split
  · rfl
  · rw [List.take_of_length_le]
    omega

theorem intercalate_cons (sep t : Str) (rest : List Str) :
    List.intercalate sep (t :: rest) =
      t ++ (match rest with | [] => [] | _ :: _ => sep ++ List.intercalate sep rest) := by
  cases rest with
  | nil => simp [List.intercalate]
  | cons y ys => simp [List.intercalate, List.intersperse]

theorem firstMaxIdx_lt_length (l : List Nat) (h : l ≠ []) : firstMaxIdx l < l.length := by
  induction l with
  | nil => simp at h
  | cons x xs ih =>
    simp only [firstMaxIdx, List.length_cons]
    split
    · rename_i hgt
      by_cases hxs : xs = []
      · subst hxs
        simp [firstMaxIdx] at hgt
      · have := ih hxs
        omega
    · omega

theorem firstMaxIdx_max (l : List Nat) (i : Nat) (hi : i < l.length) :
    l.getD i 0 ≤ l.getD (firstMaxIdx l) 0 := by
  induction l generalizing i with
  | nil => simp at hi
  | cons x xs ih =>
    simp only [firstMaxIdx]
    split
    · rename_i hgt
      cases i with
      | zero =>
        simpa using Nat.le_of_lt hgt
      | succ i =>
        have hi' : i < xs.length := by simpa using hi
        simpa using ih i hi'
    · rename_i hle
      cases i with
      | zero => simp
      | succ i =>
        have hi' : i < xs.length := by simpa using hi
        have h1 := ih i hi'
        have h2 : xs.getD (firstMaxIdx xs) 0 ≤ x := Nat.le_of_not_lt hle
        simpa using Nat.le_trans h1 h2

theorem firstMaxIdx_first (l : List Nat) (i : Nat) (hi : i < firstMaxIdx l) :
    l.getD i 0 < l.getD (firstMaxIdx l) 0 := by
  induction l generalizing i with
  | nil => simp [firstMaxIdx] at hi
  | cons x xs ih =>
    simp only [firstMaxIdx] at hi ⊢
    split
    · rename_i hgt
      cases i with
      | zero => simpa using hgt
      | succ i =>
        rw [if_pos hgt] at hi
        have hi' : i < firstMaxIdx xs := by omega
        simpa using ih i hi'
    · rename_i hle
      rw [if_neg hle] at hi
      omega

theorem tallyStep_length (k : Nat) (acc : List Nat) (out : Str) :
    (tallyStep k acc out).length = acc.length := by
  unfold tallyStep bumpAt
  split
  · rfl
  · split
    · split
      · exact List.length_set acc _ _
      · rfl
    · rfl

theorem tallyVotes_length (k : Nat) (vote_outputs : List Str) :
    (tallyVotes k vote_outputs).length = k := by
  unfold tallyVotes
  have : ∀ (outs : List Str) (acc : List Nat), (outs.foldl (tallyStep k) acc).length = acc.length := by
    intro outs
    induction outs with
    | nil => intro acc; rfl
    | cons o os ih =>
      intro acc
      rw [List.foldl_cons, ih, tallyStep_length]
  rw [this]
  exact List.length_replicate k 0

theorem tallyVotes_append_one (k : Nat) (vote_outputs : List Str) (out : Str) :
    tallyVotes k (vote_outputs ++ [out]) = tallyStep k (tallyVotes k vote_outputs) out := by
  unfold tallyVotes
  rw [List.foldl_append]
  rfl

theorem mem_keysFold (l : List Str) :
    ∀ (acc : List Str) (y : Str),
      (y ∈ l.foldl (fun acc x => if x ∈ acc then acc else acc ++ [x]) acc) ↔ (y ∈ acc ∨ y ∈ l) := by
  induction l with
  | nil => intro acc y; simp
  | cons x xs ih =>
    intro acc y
    rw [List.foldl_cons, ih]
    by_cases hx : x ∈ acc
    · rw [if_pos hx]
      constructor
      · rintro (h | h)
        · exact Or.inl h
        · exact Or.inr (List.mem_cons_of_mem x h)
      · rintro (h | h)
        · exact Or.inl h
        · rcases List.mem_cons.mp h with h1 | h1
          · exact Or.inl (h1 ▸ hx)
          · exact Or.inr h1
    · rw [if_neg hx]
      constructor
      · rintro (h | h)
        · rcases List.mem_append.mp h with h1 | h1
          · exact Or.inl h1
          · have he : y = x := by simpa using h1
            exact Or.inr (he ▸ List.mem_cons_self x xs)
        · exact Or.inr (List.mem_cons_of_mem x h)
      · rintro (h | h)
        · exact Or.inl (List.mem_append.mpr (Or.inl h))
        · rcases List.mem_cons.mp h with h1 | h1
          · exact Or.inl (List.mem_append.mpr (Or.inr (by simp [h1])))
          · exact Or.inr h1

theorem mem_keysInOrder (l : List Str) (y : Str) : y ∈ keysInOrder l ↔ y ∈ l := by
  unfold keysInOrder
  rw [mem_keysFold]
  simp

theorem keysInOrder_ne_nil {l : List Str} (h : l ≠ []) : keysInOrder l ≠ [] := by
  intro hk
  cases l with
  | nil => exact h rfl
  | cons x xs =>
    have : x ∈ keysInOrder (x :: xs) := (mem_keysInOrder _ x).mpr (List.mem_cons_self x xs)
    rw [hk] at this
    simp at this

theorem pyRemoveAux_eq_flatten (pat : Str) :
    ∀ (fuel : Nat) (s : Str), (pyRemoveAux pat fuel s) = (splitOnSubAux pat fuel s).flatten := by
  intro fuel
  induction fuel with
  | zero =>
    intro s
    cases s with
    | nil => rfl
    | cons x xs => simp [pyRemoveAux, splitOnSubAux]
  | succ n ih =>
    intro s
    cases s with
    | nil => rfl
    | cons x xs =>
      by_cases hpre : pat.isPrefixOf (x :: xs)
      · simp only [pyRemoveAux, splitOnSubAux, if_pos hpre, List.flatten_cons,
          List.nil_append]
        exact ih _
      · have hx := ih xs
        cases hsp : splitOnSubAux pat n xs with
        | nil =>
          rw [hsp] at hx
          simp only [pyRemoveAux, splitOnSubAux, if_neg hpre, hsp, List.flatten]
          simp only [List.flatten_nil] at hx
          simp [hx]
        | cons hh tt =>
          rw [hsp] at hx
          simp only [pyRemoveAux, splitOnSubAux, if_neg hpre, hsp, List.flatten_cons]
          rw [hx]
          simp [List.flatten_cons]

theorem pyRemove_eq_flatten (pat s : Str) : pyRemove pat s = (splitOnSub pat s).flatten :=
  pyRemoveAux_eq_flatten pat s.length s

theorem mapM_trajOf_ok (rs : List (MemRecord × Rat))
    (h : ∀ p ∈ rs, p.1.task_trajectory ≠ none) : ∃ ts, rs.mapM trajOf = Except.ok ts := by
  induction rs with
  | nil => exact ⟨[], rfl⟩
  | cons r rest ih =>
    obtain ⟨ts, hts⟩ := ih (fun p hp => h p (List.mem_cons_of_mem r hp))
    have hr := h r (List.mem_cons_self r rest)
    cases htraj : r.1.task_trajectory with
    | none => exact absurd htraj hr
    | some t =>
      refine ⟨t :: ts, ?_⟩
      rw [List.mapM_cons]
      simp only [trajOf, htraj, hts]
      rfl

/-- The claim-side predicate of C6: a string is composed only from stored
trajectories when it is a newline-join of trajectories of store records. -/
def composedFromStore (out : Str) (store : List MemRecord) : Prop :=
  ∃ ts : List Str, (∀ t ∈ ts, ∃ r ∈ store, r.task_trajectory = some t) ∧
    out = List.intercalate "\n".data ts

/-! ## Claim theorems -/

/-- C2: the result-parsing step never raises (it is a total function of its
input): a `None`/non-string reasoning output parses to the defaults
`{stars: 3.0, review: "No review generated."}`; an output with no line
containing `"stars:"` (case-insensitive) yields stars `3.0`; an output with
no `"review:"` line yields the fixed placeholder review.  (The remaining
defaulting branch of the source — a review line whose `':'`-split has fewer
than two parts — is unreachable, because a line containing `"review:"`
always contains a colon.) -/
theorem claimC2 :
    (parseDecision none = { stars := 3, review := "No review generated.".data }) ∧
    (∀ res : Str, starsLinesOf res = [] → parsedStars (some res) = 3) ∧
    (∀ res : Str, reviewLinesOf res = [] → parsedReview (some res) = "No review generated.".data) := by
  refine ⟨by decide, ?_, ?_⟩
  · intro res h
    simp [parsedStars, starsLineOf, h]
  · intro res h
    simp [parsedReview, parsedReviewRaw, reviewLineOf, h]

/-- Witness for C2 at the concrete output `"hello"`, which has no stars line. -/
theorem claimC2_witness :
    starsLinesOf "hello".data = [] ∧ parsedStars (some "hello".data) = 3 :=
  ⟨by decide, claimC2.2.1 "hello".data (by decide)⟩

/-- The review text the C3 claim predicts: the substring after the first
colon of the review line, truncated to at most 512 characters. -/
def afterFirstColonTrunc (l : Str) : Str :=
  ((l.dropWhile (fun x => !(x == ':'))).drop 1).take 512

/-- The segment of a line strictly between its first and second colons
(to the end of the line when there is no second colon). -/
def betweenFirstColons (l : Str) : Str :=
  ((l.dropWhile (fun x => !(x == ':'))).drop 1).takeWhile (fun x => !(x == ':'))

/-- C3 is false as stated: on the reasoning output `"review: Great: stay"`
the parsed review text is `"Great"` — the source splits the whole line on
`':'` and takes only `parts[1]`, stripped — while the substring after the
first colon (truncated to 512) is `" Great: stay"`. -/
theorem claimC3_counterexample :
    reviewLineOf (some "review: Great: stay".data) = some "review: Great: stay".data ∧
    parsedReview (some "review: Great: stay".data) = "Great".data ∧
    afterFirstColonTrunc "review: Great: stay".data = " Great: stay".data ∧
    "Great".data ≠ " Great: stay".data := by decide

/-- C3 as amended: for every reasoning output whose first `"review:"` line
is `l`, the parsed review text is the segment of `l` strictly between its
first and second colons (to end of line if none), stripped of surrounding
whitespace, truncated to at most 512 characters; in particular a
600-character colon-free review body is truncated to exactly 512 characters
(and the parser is a total function, so no exception is raised). -/
theorem claimC3 :
    (∀ (res l : Str) (rest : List Str), reviewLinesOf res = l :: rest →
       parsedReview (some res) = (pyStrip (betweenFirstColons l)).take 512) ∧
    (parsedReview (some ("review: ".data ++ List.replicate 600 'a')) = List.replicate 512 'a') := by
  constructor
  · intro res l rest h
    have hl : strContains (pyLower l) "review:".data = true := by
      have hm : l ∈ reviewLinesOf res := by
        rw [h]
        exact List.mem_cons_self l rest
      exact (List.mem_filter.mp hm).2
    have hcolon : ':' ∈ l := colon_mem_of_contains (by decide) hl
    have hne : l.isEmpty = false := by
      cases l with
      | nil => simp at hcolon
      | cons a as => rfl
    have hraw : parsedReviewRaw (some res) = pyStrip (betweenFirstColons l) := by
      have hline : reviewLineOf (some res) = some l := by
        simp [reviewLineOf, h]
      simp only [parsedReviewRaw, hline, hne, Bool.false_eq_true, if_false]
      rw [if_pos (splitOnChar_length_gt hcolon), splitOnChar_getD_one hcolon]
      rfl
    simp only [parsedReview, hraw, truncate_eq_take]
  · decide

/-- Witness for the amended C3 at the concrete output `"review: hi"`. -/
theorem claimC3_witness :
    reviewLinesOf "review: hi".data = ["review: hi".data] ∧
    parsedReview (some "review: hi".data) =
      (pyStrip (betweenFirstColons "review: hi".data)).take 512 :=
  ⟨by decide, claimC3.1 "review: hi".data "review: hi".data [] (by decide)⟩

/-- C10: `MemoryBase.__call__` on a string containing `"review:"` performs
an insertion of the string with every (left-to-right, non-overlapping)
occurrence of `"review:"` removed — equivalently, the concatenation of the
fragments obtained by splitting on that pattern — and returns `None`; only
a string not containing `"review:"` triggers retrieval, whose result is
returned. -/
theorem claimC10 : ∀ (retrieve : Str → Str) (s : Str),
    (strContains s "review:".data = true →
       memoryCall retrieve s = (CallEffect.added ((splitOnSub "review:".data s).flatten), none)) ∧
    (strContains s "review:".data = false →
       memoryCall retrieve s = (CallEffect.retrieved s, some (retrieve s))) := by
  intro retrieve s
  constructor
  · intro h
    unfold memoryCall
    rw [if_pos h, pyRemove_eq_flatten]
  · intro h
    unfold memoryCall
    rw [if_neg (by simp [h])]

/-- Witness for C10 at the concrete query `"review: hi"`: the call inserts
`" hi"` and returns `None`. -/
theorem claimC10_witness :
    strContains "review: hi".data "review:".data = true ∧
    memoryCall (fun _ => []) "review: hi".data = (CallEffect.added " hi".data, none) := by
  refine ⟨by decide, ?_⟩
  rw [(claimC10 (fun _ => []) "review: hi".data).1 (by decide)]
  decide

/-- The candidate list of the C4 spec example. -/
def exampleCandidates : List Str := ["c0", "c1", "c2"].map String.data

/-- The five vote completions of the C4 spec example: three votes for
candidate 2, one for candidate 1, one unparseable. -/
def exampleVoteOutputs : List Str :=
  ["The best answer is 2", "Clearly the best answer is 2", "The best answer is 2",
   "The best answer is 1", "no parse"].map String.data

/-- C4: in TOT voting, appending a vote completion that matches the pattern
with captured integer `d` (with `d - 1` a valid 0-based index) increments
tally slot `d - 1` by one; an unparseable completion leaves the tally
unchanged (no abort — the tally is a total function); for a non-empty
candidate list (without the `'think'` short-circuit) `get_votes` returns
the candidate at the first index attaining the maximal tally — the maximum,
with ties broken in favour of the earliest index; and on the spec example
the tally is `[1, 3, 0]` and candidate `c1` is selected. -/
theorem claimC4 :
    (∀ (cands : List Str) (vote_outputs : List Str) (out : Str) (d : Nat),
       parseVote out = some d → 1 ≤ d → d - 1 < cands.length →
       tallyVotes cands.length (vote_outputs ++ [out]) =
         bumpAt (tallyVotes cands.length vote_outputs) (d - 1)) ∧
    (∀ (cands : List Str) (vote_outputs : List Str) (out : Str),
       parseVote out = none →
       tallyVotes cands.length (vote_outputs ++ [out]) = tallyVotes cands.length vote_outputs) ∧
    (∀ (cands : List Str) (vote_outputs : List Str), cands ≠ [] →
       ¬ (¬ (cands.headD []).isEmpty = true ∧
            strContains (pyLower (cands.headD [])) "think".data = true) →
       getVotes cands vote_outputs =
         cands.getD (firstMaxIdx (tallyVotes cands.length vote_outputs)) [] ∧
       firstMaxIdx (tallyVotes cands.length vote_outputs) < cands.length ∧
       (∀ j, j < cands.length →
          (tallyVotes cands.length vote_outputs).getD j 0 ≤
            (tallyVotes cands.length vote_outputs).getD
              (firstMaxIdx (tallyVotes cands.length vote_outputs)) 0) ∧
       (∀ j, j < firstMaxIdx (tallyVotes cands.length vote_outputs) →
          (tallyVotes cands.length vote_outputs).getD j 0 <
            (tallyVotes cands.length vote_outputs).getD
              (firstMaxIdx (tallyVotes cands.length vote_outputs)) 0)) ∧
    (tallyVotes 3 exampleVoteOutputs = [1, 3, 0] ∧
       getVotes exampleCandidates exampleVoteOutputs = "c1".data) := by
  refine ⟨?_, ?_, ?_, by decide⟩
  · intro cands vote_outputs out d hpv hd1 hdlt
    rw [tallyVotes_append_one]
    unfold tallyStep
    have hne : out.isEmpty = false := by
      cases out with
      | nil => exact absurd hpv (by simp [parseVote, lastDigitIdx])
      | cons a b => rfl
    rw [hne]
    simp only [Bool.false_eq_true, if_false, hpv]
    rw [if_pos ⟨hd1, hdlt⟩]
  · intro cands vote_outputs out hpv
    rw [tallyVotes_append_one]
    unfold tallyStep
    by_cases hne : out.isEmpty = true
    · rw [hne]
      simp
    · rw [Bool.not_eq_true] at hne
      rw [hne]
      simp only [Bool.false_eq_true, if_false, hpv]
  · intro cands vote_outputs hcne hshort
    obtain ⟨r0, rest, rfl⟩ : ∃ r0 rest, cands = r0 :: rest := by
      cases cands with
      | nil => exact absurd rfl hcne
      | cons a b => exact ⟨a, b, rfl⟩
    have hshort' :
        ¬ (¬ r0.isEmpty = true ∧ strContains (pyLower r0) "think".data = true) := by
      simpa using hshort
    have hlen := tallyVotes_length (r0 :: rest).length vote_outputs
    have htne : tallyVotes (r0 :: rest).length vote_outputs ≠ [] := by
      intro hnil
      rw [hnil] at hlen
      simp at hlen
    have hflt : firstMaxIdx (tallyVotes (r0 :: rest).length vote_outputs) < (r0 :: rest).length := by
      have := firstMaxIdx_lt_length _ htne
      omega
    have hgv : getVotes (r0 :: rest) vote_outputs =
        (r0 :: rest).getD (firstMaxIdx (tallyVotes (r0 :: rest).length vote_outputs)) [] := by
      simp only [getVotes, getVotesCore]
      rw [if_neg hshort', if_neg (by simp), if_neg (by omega)]
    refine ⟨hgv, hflt, ?_, ?_⟩
    · intro j hj
      exact firstMaxIdx_max _ j (by omega)
    · intro j hj
      exact firstMaxIdx_first _ j hj

/-- Witness for C4: applying the tally-increment and selection parts at the
concrete spec example. -/
theorem claimC4_witness :
    (parseVote "The best answer is 2".data = some 2 ∧
       tallyVotes 3 (["The best answer is 1".data] ++ ["The best answer is 2".data]) =
         bumpAt (tallyVotes 3 ["The best answer is 1".data]) 1) ∧
    getVotes exampleCandidates ["The best answer is 2".data] = "c1".data := by
  refine ⟨⟨by decide, ?_⟩, ?_⟩
  · exact claimC4.1 exampleCandidates ["The best answer is 1".data]
      "The best answer is 2".data 2 (by decide) (by decide) (by decide)
  · rw [(claimC4.2.2.1 exampleCandidates ["The best answer is 2".data]
      (by decide) (by decide)).1]
    decide

/-- C5: the self-consistency selection over the list of completions returned
by its single LLM call picks the most frequent completion by exact string
match, with the first-seen completion winning among equal counts (the chosen
completion's key position in first-occurrence order strictly dominates every
earlier key's count); on the spec example `["A","A","B","A","C"]` it returns
`"A"`; and with no completions it returns the fixed fallback string. -/
theorem claimC5 :
    (cotscSelect (["A", "A", "B", "A", "C"].map String.data) = "A".data) ∧
    (cotscSelect [] = fallbackResultText) ∧
    (∀ rs : List Str, rs ≠ [] →
       cotscSelect rs ∈ rs ∧
       (∀ y ∈ rs, rs.count y ≤ rs.count (cotscSelect rs)) ∧
       (∃ i, i < (keysInOrder rs).length ∧ (keysInOrder rs).getD i [] = cotscSelect rs ∧
          ∀ j, j < i → rs.count ((keysInOrder rs).getD j []) < rs.count (cotscSelect rs))) := by
  refine ⟨by decide, by decide, ?_⟩
  intro rs hrs
  obtain ⟨k0, ks, hk⟩ : ∃ k0 ks, keysInOrder rs = k0 :: ks := by
    cases hck : keysInOrder rs with
    | nil => exact absurd hck (keysInOrder_ne_nil hrs)
    | cons a b => exact ⟨a, b, rfl⟩
  have hsel : cotscSelect rs =
      (keysInOrder rs).getD
        (firstMaxIdx ((keysInOrder rs).map (fun x => rs.count x))) [] := by
    unfold cotscSelect mostCommon1
    rw [hk]
  have hcne : (keysInOrder rs).map (fun x => rs.count x) ≠ [] := by
    rw [hk]
    simp
  have hilt : firstMaxIdx ((keysInOrder rs).map (fun x => rs.count x)) <
      (keysInOrder rs).length := by
    have := firstMaxIdx_lt_length _ hcne
    simpa using this
  have hcountD : ∀ j, j < (keysInOrder rs).length →
      ((keysInOrder rs).map (fun x => rs.count x)).getD j 0 =
        rs.count ((keysInOrder rs).getD j []) := by
    intro j hj
    rw [List.getD_eq_getElem _ _ (by simpa using hj), List.getD_eq_getElem _ _ hj,
      List.getElem_map]
  have hselcount :
      rs.count (cotscSelect rs) =
        ((keysInOrder rs).map (fun x => rs.count x)).getD
          (firstMaxIdx ((keysInOrder rs).map (fun x => rs.count x))) 0 := by
    rw [hsel, hcountD _ hilt]
  have hmemkeys : cotscSelect rs ∈ keysInOrder rs := by
    rw [hsel, List.getD_eq_getElem _ _ hilt]
    exact List.getElem_mem hilt
  refine ⟨(mem_keysInOrder rs _).mp hmemkeys, ?_, ?_⟩
  · intro y hy
    have hyk : y ∈ keysInOrder rs := (mem_keysInOrder rs y).mpr hy
    obtain ⟨⟨j, hj⟩, hjy⟩ := List.mem_iff_get.mp hyk
    have hycount : rs.count y = ((keysInOrder rs).map (fun x => rs.count x)).getD j 0 := by
      rw [hcountD j hj, List.getD_eq_getElem _ _ hj]
      rw [← hjy]
      rfl
    rw [hycount, hselcount]
    exact firstMaxIdx_max _ j (by simpa using hj)
  · refine ⟨firstMaxIdx ((keysInOrder rs).map (fun x => rs.count x)), hilt, hsel.symm, ?_⟩
    intro j hj
    have hjlt : j < (keysInOrder rs).length := Nat.lt_trans hj hilt
    rw [hselcount, ← hcountD j hjlt]
    exact firstMaxIdx_first _ j hj

/-- Witness for C5 at the concrete completion list `["A", "B"]`. -/
theorem claimC5_witness :
    (["A".data, "B".data] ≠ ([] : List Str)) ∧
    cotscSelect ["A".data, "B".data] ∈ ["A".data, "B".data] :=
  ⟨by decide, (claimC5.2.2 ["A".data, "B".data] (by decide)).1⟩

/-- A similarity oracle returning every stored record, in store order. -/
def searchAll : SearchOracle := fun store _ _ => store.map (fun r => (r, 0))

/-- An LLM oracle answering every prompt with `"XYZ"`. -/
def llmXYZ : Str → Str := fun _ => "XYZ".data

/-- A one-record store whose single trajectory is `"traj-A"`. -/
def storeTrajA : List MemRecord := [mkPlainRecord "traj-A".data]

/-- C6 is false as stated for the Task-Plan variant: on a store whose only
trajectory is `"traj-A"`, with an LLM answering `"XYZ"`, `retrieve` returns
the fixed banner followed by the LLM-synthesized plan `"XYZ"` — a string
that is not composed from stored trajectories' text. -/
theorem claimC6_counterexample :
    tpRetrieve searchAll llmXYZ storeTrajA "q".data = Except.ok (tpBanner ++ "XYZ".data) ∧
    ¬ composedFromStore (tpBanner ++ "XYZ".data) storeTrajA := by
  refine ⟨by decide, ?_⟩
  rintro ⟨ts, hts, heq⟩
  cases ts with
  | nil =>
    rw [show List.intercalate "\n".data ([] : List Str) = [] from rfl] at heq
    exact absurd heq (by decide)
  | cons t rest =>
    have ht : t = "traj-A".data := by
      obtain ⟨r, hr, hrt⟩ := hts t (List.mem_cons_self t rest)
      have hr' : r = mkPlainRecord "traj-A".data := by simpa [storeTrajA] using hr
      rw [hr'] at hrt
      have hs : some "traj-A".data = some t := by simpa [mkPlainRecord] using hrt
      exact (Option.some.inj hs).symm
    subst ht
    have e2 : (List.intercalate "\n".data ("traj-A".data :: rest)).head? = some 't' := by
      rw [intercalate_cons]
      rfl
    rw [← heq] at e2
    have e1 : (tpBanner ++ "XYZ".data).head? = some 'P' := rfl
    rw [e1] at e2
    exact absurd (Option.some.inj e2) (by decide)

/-- C6 as amended: for every store, the Direct (DILU) retrieval returns a
string composed only from stored trajectories' text — the newline-join of
trajectories of records delivered by the similarity search (which returns
stored records) — while the Task-Plan variant's result is a fixed banner
followed by LLM-synthesized plan text, which need not come from the store. -/
theorem claimC6 : ∀ (search : SearchOracle) (store : List MemRecord) (q : Str),
    (∀ p ∈ search store q 1, p.1 ∈ store) →
    ∃ out, diluRetrieve search store q = Except.ok out ∧ composedFromStore out store := by
  intro search store q hsub
  unfold diluRetrieve
  by_cases hlen : store.length = 0
  · rw [if_pos hlen]
    exact ⟨[], rfl, [], by simp, rfl⟩
  · rw [if_neg hlen]
    refine ⟨_, rfl, _, ?_, rfl⟩
    intro t ht
    obtain ⟨p, hpmem, hpt⟩ := List.mem_map.mp ht
    have hpf := List.mem_filter.mp hpmem
    refine ⟨p.1, hsub p hpf.1, ?_⟩
    have htruthy : pyTruthyOpt p.1.task_trajectory = true := hpf.2
    cases htraj : p.1.task_trajectory with
    | none =>
      rw [htraj] at htruthy
      exact absurd htruthy (by decide)
    | some u =>
      rw [htraj] at hpt
      have hu : u = t := by simpa using hpt
      exact congrArg some hu

/-- Witness for the amended C6 on the concrete one-record store. -/
theorem claimC6_witness :
    (∀ p ∈ searchAll storeTrajA "q".data 1, p.1 ∈ storeTrajA) ∧
    ∃ out, diluRetrieve searchAll storeTrajA "q".data = Except.ok out ∧
      composedFromStore out storeTrajA :=
  ⟨by decide, claimC6 searchAll storeTrajA "q".data (by decide)⟩

/-- A Chroma document whose metadata has no `task_trajectory` field. -/
def recNoTraj : MemRecord := { page_content := "p".data }

/-- A similarity oracle that delivers the malformed document. -/
def searchNoTraj : SearchOracle := fun _ _ _ => [(recNoTraj, 0)]

/-- C7 is false as stated for the Voyager variant: a similarity result whose
`task_trajectory` metadata field is missing is not skipped — the unguarded
`metadata['task_trajectory']` access raises `KeyError`. -/
theorem claimC7_counterexample :
    voyagerRetrieve searchNoTraj [recNoTraj] "q".data =
      Except.error ⟨"KeyError: task_trajectory".data⟩ := by decide

/-- C7 as amended: on an empty store every variant's retrieve returns
exactly `""`; the DILU, Generative and TP retrievals never raise for any
store and search result; and DILU (the other cited variant) skips
similarity results with missing or falsy trajectory metadata, returning
`""` rather than propagating an error when all results are malformed.
(Voyager, by the counterexample, instead raises `KeyError`.) -/
theorem claimC7 :
    (∀ (search : SearchOracle) (q : Str) (llm : Str → Str),
       diluRetrieve search [] q = Except.ok [] ∧
       genRetrieve search llm [] q = Except.ok [] ∧
       tpRetrieve search llm [] q = Except.ok [] ∧
       voyagerRetrieve search [] q = Except.ok []) ∧
    (∀ (search : SearchOracle) (store : List MemRecord) (q : Str) (llm : Str → Str),
       (diluRetrieve search store q).isOk = true ∧
       (genRetrieve search llm store q).isOk = true ∧
       (tpRetrieve search llm store q).isOk = true) ∧
    (∀ (search : SearchOracle) (store : List MemRecord) (q : Str),
       store ≠ [] →
       (∀ p ∈ search store q 1, pyTruthyOpt p.1.task_trajectory = false) →
       diluRetrieve search store q = Except.ok []) := by
  refine ⟨?_, ?_, ?_⟩
  · intro search q llm
    exact ⟨rfl, rfl, rfl, rfl⟩
  · intro search store q llm
    refine ⟨?_, ?_, ?_⟩
    · unfold diluRetrieve
      split <;> rfl
    · unfold genRetrieve
      dsimp only
      repeat' split
      all_goals rfl
    · unfold tpRetrieve
      split <;> rfl
  · intro search store q hne hmal
    unfold diluRetrieve
    rw [if_neg (fun h => hne (List.length_eq_zero.mp h))]
    have hfilter : (search store q 1).filter (fun r => pyTruthyOpt r.1.task_trajectory) = [] :=
      List.filter_eq_nil_iff.mpr (fun p hp => by simp [hmal p hp])
    dsimp only
    rw [hfilter]
    rfl

/-- Witness for the amended C7: a nonempty store whose only similarity
result is malformed yields `""` from the DILU retrieval. -/
theorem claimC7_witness :
    ([recNoTraj] ≠ ([] : List MemRecord)) ∧
    (∀ p ∈ searchNoTraj [recNoTraj] "q".data 1, pyTruthyOpt p.1.task_trajectory = false) ∧
    diluRetrieve searchNoTraj [recNoTraj] "q".data = Except.ok [] :=
  ⟨by decide, by decide, claimC7.2.2 searchNoTraj [recNoTraj] "q".data (by decide) (by decide)⟩

/-- A store built by `addMemory('')`, `addMemory('A')`, `addMemory('B')`:
the first record's trajectory is the falsy `''`, so the scoring loop skips
it. -/
def storeMisaligned : List MemRecord :=
  [mkPlainRecord [], mkPlainRecord "A".data, mkPlainRecord "B".data]

/-- A scoring LLM oracle rating the `"A"` candidate 9 and everything else 2. -/
def llmScore92 : Str → Str :=
  fun p => if p = genScorePrompt "A".data "q".data then "9".data else "2".data

/-- C8 fails on the code (index misalignment): with three similarity
results whose trajectories are `''` (falsy, skipped), `"A"` (scored 9) and
`"B"` (scored 2), the filtered score list is `[9, 2]` with first maximum at
filtered index 0, the highest-scoring candidate's trajectory is `"A"` — yet
`retriveMemory` indexes the *unfiltered* result list with the *filtered*
argmax and returns the skipped record's trajectory `''` instead of `"A"`. -/
theorem claimC8 :
    genLoop llmScore92 "q".data (searchAll storeMisaligned "q".data 3) =
      (["A".data, "B".data], [9, 2]) ∧
    firstMaxIdx [9, 2] = 0 ∧
    (searchAll storeMisaligned "q".data 3).getD 0 default =
      (mkPlainRecord [], 0) ∧
    genRetrieve searchAll llmScore92 storeMisaligned "q".data = Except.ok [] := by
  refine ⟨by decide, by decide, by decide, by decide⟩

/-- C9: for every memory variant and every sequence of `addMemory` calls,
each stored record's `task_trajectory` is exactly the text passed to the
`addMemory` call that created it (and the record is exactly what that call
built); for the Voyager variant the LLM summary is stored only as the
searchable page content while the trajectory stays the original text; and
retrieval over such a store never sees a record whose trajectory field is
absent — in particular Voyager's retrieval (the one that would raise on an
absent field) succeeds. -/
theorem claimC9 : ∀ (v : MemVariant) (llm : Str → Str) (texts : List Str)
    (search : SearchOracle) (q : Str),
    (∀ rec ∈ buildStore v llm texts, ∃ t ∈ texts,
       rec.task_trajectory = some t ∧ rec = mkRecord v llm t) ∧
    (∀ t ∈ texts, (mkRecord MemVariant.voyager llm t).task_trajectory = some t ∧
       (mkRecord MemVariant.voyager llm t).page_content = llm (voyagerPromptPrefix ++ t)) ∧
    ((∀ p ∈ search (buildStore v llm texts) q 1, p.1 ∈ buildStore v llm texts) →
       (∀ p ∈ search (buildStore v llm texts) q 1, p.1.task_trajectory ≠ none) ∧
       (voyagerRetrieve search (buildStore v llm texts) q).isOk = true) := by
  intro v llm texts search q
  have htraj : ∀ rec ∈ buildStore v llm texts, ∃ t ∈ texts,
      rec.task_trajectory = some t ∧ rec = mkRecord v llm t := by
    intro rec hrec
    obtain ⟨t, ht, hrt⟩ := List.mem_map.mp hrec
    refine ⟨t, ht, ?_, hrt.symm⟩
    rw [← hrt]
    cases v <;> rfl
  refine ⟨htraj, ?_, ?_⟩
  · intro t ht
    exact ⟨rfl, rfl⟩
  · intro hsub
    have hnn : ∀ p ∈ search (buildStore v llm texts) q 1, p.1.task_trajectory ≠ none := by
      intro p hp
      obtain ⟨t, _, htr, _⟩ := htraj p.1 (hsub p hp)
      rw [htr]
      simp
    refine ⟨hnn, ?_⟩
    unfold voyagerRetrieve
    by_cases hlen : (buildStore v llm texts).length = 0
    · rw [if_pos hlen]
      rfl
    · rw [if_neg hlen]
      obtain ⟨ts, hts⟩ := mapM_trajOf_ok _ hnn
      rw [hts]
      rfl

/-- An LLM oracle answering every prompt with `"S"`. -/
def llmConstS : Str → Str := fun _ => "S".data

/-- Witness for C9 on a concrete Voyager store built from one `addMemory`. -/
theorem claimC9_witness :
    (∀ p ∈ searchAll (buildStore MemVariant.voyager llmConstS ["T1".data]) "q".data 1,
        p.1 ∈ buildStore MemVariant.voyager llmConstS ["T1".data]) ∧
    (voyagerRetrieve searchAll (buildStore MemVariant.voyager llmConstS ["T1".data])
        "q".data).isOk = true :=
  ⟨by decide,
   ((claimC9 MemVariant.voyager llmConstS ["T1".data] searchAll "q".data).2.2 (by decide)).2⟩

/-- C1: any exception raised anywhere inside the `try:` body of the
per-task workflow is caught at the orchestrator boundary and converted to
the sentinel decision `{stars: 0, review: ""}` (the `workflow` function is
total, so the exception never escapes the call); in particular when
`InteractionTool.get_user` raises, the workflow returns the sentinel. -/
theorem claimC1 :
    (∀ (env : WorkflowEnv) (task : TaskDesc) (e : PyErr),
       workflowBody env task = Except.error e → workflow env task = sentinelDecision) ∧
    (∀ (env : WorkflowEnv) (task : TaskDesc) (e : PyErr),
       env.getUser task.user_id = Except.error e → workflow env task = sentinelDecision) := by
  constructor
  · intro env task e h
    unfold workflow
    rw [h]
  · intro env task e h
    have hf : workflowBody.fetchLoop env task planBaseline (none, none) = Except.error e := by
      simp only [workflowBody.fetchLoop, planBaseline]
      rw [show strContains "First I need to find user information".data "user".data = true
        from by decide]
      simp only [if_true]
      rw [h]
      rfl
    have hbody : workflowBody env task = Except.error e := by
      simp only [workflowBody]
      rw [hf]
      rfl
    unfold workflow
    rw [hbody]

/-- A workflow environment whose `get_user` raises. -/
def envGetUserBoom : WorkflowEnv :=
  { getUser := fun _ => .error ⟨"boom".data⟩
    getItem := fun _ => .ok none
    getReviewsByItem := fun _ => .ok []
    getReviewsByUser := fun _ => .ok []
    search := searchAll
    llm := fun _ _ => .ok [] }

/-- The concrete task of the C1 witness. -/
def taskW : TaskDesc := { user_id := "u1".data, item_id := "i1".data }

/-- Witness for C1: with a raising `get_user`, the `try:` body errors and
the workflow returns the sentinel. -/
theorem claimC1_witness :
    workflowBody envGetUserBoom taskW = Except.error ⟨"boom".data⟩ ∧
    workflow envGetUserBoom taskW = sentinelDecision :=
  ⟨by decide, claimC1.1 envGetUserBoom taskW ⟨"boom".data⟩ (by decide)⟩
